import Mathlib

/-!
Verification development for the `interstellar` arcade-shooter core
(`interstellar/sprite.py`): a shallow embedding of the per-frame update
logic of `Sprite`, `SpriteController`, `ShipController`, `Ship`,
`Asteroid` and `MechanismAsteroid`, together with theorems about the
projectile cap, movement clamping, damage/death semantics, the
attachment (power-up) system, and the list-mutation behaviour of the
projectile loops.

Positions are integers (the program runs under Python 2, where `/` on
integers is floor division; all divisors here are positive so Lean's
`Int` division agrees).  The per-tick random projectile decrement
(`random.random() * projectile_speed * 2`) is supplied externally as a
nonnegative integer parameter.  Collaborator modules that are not part
of the repository snapshot (`resource`, `audio`, `node`, `mechanism`,
`game`) are modelled from the spec where their behaviour is observable;
each such definition is marked `Modelled from the spec:`.
-/

/-- Modelled from the spec: an audio handle (`audio.AudioSound`, missing
from the snapshot) with `play()`, `stop()` and the `playing` flag; we
additionally count `play`/`stop` calls so that "the effect plays
(restarted if already playing)" is observable. -/
structure Snd where
  playing : Bool
  plays : Nat
  stops : Nat
  deriving Repr, DecidableEq

/-- Modelled from the spec: `AudioSound.play()` marks the sound playing. -/
def Snd.play (s : Snd) : Snd :=
  { s with playing := true, plays := s.plays + 1 }

/-- Modelled from the spec: `AudioSound.stop()` marks the sound stopped. -/
def Snd.stop (s : Snd) : Snd :=
  { s with playing := false, stops := s.stops + 1 }

/-- The `if sound.playing: sound.stop()` / `sound.play()` idiom used by
the attachment setter (`sprite.py` lines 37-40 and 46-49). -/
def Snd.playRestart (s : Snd) : Snd :=
  (if s.playing then s.stop else s).play

/-- The four concrete `MechanismAsteroid` attachment classes
(`mechanism.ShieldMechanism`, `InstantKillMechanism`,
`FullHealthMechanism`, `DoubleHealthMechanism`). -/
inductive AttachKind where
  | shield
  | instantKill
  | fullHealth
  | doubleHealth
  deriving Repr, DecidableEq

/-- An attachment object.  `aid` is the object's identity (Python object
identity modelled by a globally fresh number), `akind` its class.
`imagePos` is the position of the attachment's visual when it has one
(`hasattr(attachment, 'image') and attachment.image` in
`SpriteController.move`). -/
structure Attachment where
  aid : Nat
  akind : AttachKind
  imagePos : Option (Int × Int)
  deriving Repr, DecidableEq

/-- The `Sprite` state relevant to `hurt` and the attachment setter
(`sprite.py` lines 11-88): health, damage, the `can_damage` gate, the
single attachment slot and the two feedback sounds.  `setupsRun`
records the `aid` of every attachment whose `setup()` was invoked
(`mechanism` is missing from the snapshot, so `setup()` is modelled from
the spec as an observable event). -/
structure Sprite where
  health : Int
  damage : Int
  can_damage : Bool
  attachment : Option Attachment
  attachment_sound : Snd
  attachment_deny_sound : Snd
  setupsRun : List Nat
  deriving Repr, DecidableEq

/-- The attachment setter (`sprite.py` lines 34-49): if the sprite
already holds an attachment, or the offered attachment is identical to
the current slot content, the grant is denied (deny sound restarted);
otherwise the offered attachment is stored, its `setup()` runs, and the
accept sound is restarted. -/
def Sprite.setAttachment (s : Sprite) (a : Option Attachment) : Sprite :=
  if s.attachment.isSome || a == s.attachment then
    { s with attachment_deny_sound := s.attachment_deny_sound.playRestart }
  else
    { s with
        attachment := a,
        setupsRun :=
          match a with
          | some att => att.aid :: s.setupsRun
          | none => s.setupsRun,
        attachment_sound := s.attachment_sound.playRestart }

/-- The damage rule `Sprite.hurt` (`sprite.py` lines 51-58).  The base
class method reads only `attacker.damage` from the attacker, so the
attacker is passed as its damage value.  The returned boolean records
whether the (virtual) `die` transition was invoked; the subclass `die`
effects are applied by the caller. -/
def Sprite.hurt (s : Sprite) (attackerDamage : Int) : Sprite × Bool :=
  if !s.can_damage then (s, false)
  else if s.health ≤ 0 then (s, true)
  else ({ s with health := s.health - attackerDamage }, false)

/-- A projectile (a `ResourceImage` bullet).  `pid` is the object's
identity. -/
structure Projectile where
  pid : Nat
  x : Int
  y : Int
  deriving Repr, DecidableEq

/-- An `Asteroid` (or `MechanismAsteroid` when `is_mechanism` is true)
together with its visual bounds.  `akind` is the carrier's `ATTACHMENT`
class; it is only meaningful when `is_mechanism` is true. -/
structure Asteroid where
  sid : Nat
  x : Int
  y : Int
  width : Nat
  height : Nat
  health : Int
  damage : Int
  can_damage : Bool
  is_mechanism : Bool
  akind : AttachKind
  deriving Repr, DecidableEq

/-- The whole per-frame state seen by `ShipController.move`: the player
sprite and its visual, the input flags, the projectile list, the
asteroid list owned by the parent scene, and the observable effects of
the parent-scene calls that are modelled from the spec (`explosions`
for `parent.explode`, `removals` for `parent.remove_asteroid`, `ended`
for `parent.end`).  `nextId` supplies fresh object identities.
`destroyedIds`, `movedIds` and `testedIds` instrument the projectile
loops: they record, for the current run, which projectiles had
`destroy()` called, were advanced, and were passed to
`check_projectile_collisions`. -/
structure GameState where
  player : Sprite
  px : Int
  py : Int
  pwidth : Nat
  pheight : Nat
  displayWidth : Nat
  displayHeight : Nat
  moving_forward : Bool
  moving_backward : Bool
  moving_right : Bool
  moving_left : Bool
  firing : Bool
  current_distance : Int
  projectiles : List Projectile
  asteroids : List Asteroid
  explosions : List (Int × Int)
  removals : List (Nat × Bool)
  ended : Bool
  nextId : Nat
  fireSoundRestarts : Nat
  destroyedIds : List Nat
  movedIds : List Nat
  testedIds : List Nat
  deriving Repr, DecidableEq

/-- ShipController.speed (`sprite.py` line 154). -/
def shipSpeed : Int := 15

/-- ShipController.maximum_projectiles (`sprite.py` line 165). -/
def maximumProjectiles : Nat := 15

/-- ShipController.projectile_speed (`sprite.py` line 156). -/
def projectileSpeed : Int := 20

/-- Modelled from the spec: `ResourceImage.collide_point` (`resource` is
missing from the snapshot).  Point-in-bounds test per spec section 4.4:
the receiver's position lies within the argument's visual bounds, where
an image positioned at `(cx, cy)` with size `w × h` occupies
`[cx - w/2, cx + w/2] × [cy - h/2, cy + h/2]`. -/
def collidePoint (ptx pty cx cy : Int) (w h : Nat) : Bool :=
  decide (cx - (w : Int) / 2 ≤ ptx) && decide (ptx ≤ cx + (w : Int) / 2) &&
  decide (cy - (h : Int) / 2 ≤ pty) && decide (pty ≤ cy + (h : Int) / 2)

/-- Python `list.remove` on the projectile list: removal of the first
element equal to the argument, equality being object identity (`pid`). -/
def removeFirstPid (pid : Nat) : List Projectile → List Projectile
  | [] => []
  | q :: t => if q.pid = pid then t else q :: removeFirstPid pid t

/-- Python `list.remove` on the asteroid list, by identity (`sid`). -/
def removeFirstSid (sid : Nat) : List Asteroid → List Asteroid
  | [] => []
  | a :: t => if a.sid = sid then t else a :: removeFirstSid sid t

/-- In-place mutation of one asteroid object's health
(`self.health -= attacker.damage` inside `hurt`), identified by `sid`. -/
def setSidHealth (sid : Nat) (h : Int) : List Asteroid → List Asteroid
  | [] => []
  | a :: t => if a.sid = sid then { a with health := h } :: t
              else a :: setSidHealth sid h t

/-- SpriteController.move (`sprite.py` lines 112-114): if the sprite
holds an attachment that has a visual, that visual is moved to the
sprite's position. -/
def superMove (g : GameState) : GameState :=
  match g.player.attachment with
  | some att =>
    match att.imagePos with
    | some _ =>
        { g with player :=
            { g.player with attachment := some { att with imagePos := some (g.px, g.py) } } }
    | none => g
  | none => g

/-- The ship-movement lines of `ShipController.move` (`sprite.py` lines
222-233): the unconditional `current_distance += speed`, then the
clamped forward/backward and right/left moves (each axis is an if/elif
pair; the backward move also subtracts `speed / 2` from the distance).
None of the statements before a condition changes the fields the
condition reads, so the conditions are stated on the incoming state. -/
def moveShip (g : GameState) : GameState :=
  let g1 := { g with current_distance := g.current_distance + shipSpeed }
  let g2 :=
    if g.moving_forward ∧ ¬(g.py - (g.pheight : Int) / 2 ≤ 0) then
      { g1 with py := g1.py - shipSpeed }
    else if g.moving_backward ∧ ¬(g.py + (g.pheight : Int) / 2 ≥ (g.displayHeight : Int)) then
      { g1 with py := g1.py + shipSpeed / 2,
                current_distance := g1.current_distance - shipSpeed / 2 }
    else g1
  if g.moving_right ∧ ¬(g.px + (g.pwidth : Int) / 2 ≥ (g.displayWidth : Int)) then
    { g2 with px := g2.px + shipSpeed }
  else if g.moving_left ∧ ¬(g.px - (g.pwidth : Int) / 2 ≤ 0) then
    { g2 with px := g2.px - shipSpeed }
  else g2

/-- The movement section of `ShipController.move` (`sprite.py` lines
219-233): the `super` call followed by the ship movement. -/
def movePhase (g : GameState) : GameState :=
  moveShip (superMove g)

/-- ShipController.fire_projectile (`sprite.py` lines 269-287): the fire
sound is restarted (the `ResourceAudioArray` deselect/select pair is
modelled from the spec as a restart counter), then two bullets are
created at `(x - width/2, y)` and `(x + width/2, y)` and appended to the
projectile list. -/
def fireProjectile (g : GameState) : GameState :=
  let b0 : Projectile := ⟨g.nextId, g.px - (g.pwidth : Int) / 2, g.py⟩
  let b1 : Projectile := ⟨g.nextId + 1, g.px + (g.pwidth : Int) / 2, g.py⟩
  { g with
      fireSoundRestarts := g.fireSoundRestarts + 1,
      projectiles := g.projectiles ++ [b0, b1],
      nextId := g.nextId + 2 }

/-- The fire gate inside `ShipController.move` (`sprite.py` lines
235-236): fire only while the fire intent is held and the in-flight
count is strictly below the cap. -/
def firePhase (g : GameState) : GameState :=
  if g.firing ∧ g.projectiles.length < maximumProjectiles then fireProjectile g else g

/-- ShipController.destroy_projectile (`sprite.py` lines 289-291):
`projectile.destroy()` (recorded in `destroyedIds`; the visual teardown
itself lives in the missing `resource` module) followed by
`self.projectiles.remove(projectile)`. -/
def destroyProjectile (g : GameState) (pid : Nat) : GameState :=
  { g with
      destroyedIds := pid :: g.destroyedIds,
      projectiles := removeFirstPid pid g.projectiles }

/-- Modelled from the spec: `parent.remove_asteroid(asteroid, explode)`
(the parent scene lives in the missing `game` module).  The asteroid is
removed from the obstacle set and the removal is recorded together with
its explosion flag. -/
def removeAsteroid (g : GameState) (sid : Nat) (explode : Bool) : GameState :=
  { g with
      asteroids := removeFirstSid sid g.asteroids,
      removals := (sid, explode) :: g.removals }

/-- The virtual `die` of an asteroid hit.  `MechanismAsteroid.die`
(`sprite.py` lines 385-387) instantiates the carrier's `ATTACHMENT`
class, offers it to the killer (the player sprite) through the
attachment setter, and removes the asteroid without explosion;
`Asteroid.die` (lines 367-369) records an explosion at the asteroid's
position (`parent.explode`, modelled from the spec) and removes it with
the explosion flag. -/
def asteroidDie (g : GameState) (a : Asteroid) : GameState :=
  if a.is_mechanism then
    removeAsteroid
      { g with
          nextId := g.nextId + 1,
          player := g.player.setAttachment (some ⟨g.nextId, a.akind, none⟩) }
      a.sid false
  else
    removeAsteroid { g with explosions := (a.x, a.y) :: g.explosions } a.sid true

/-- The asteroid side of `Sprite.hurt` (`sprite.py` lines 51-58) with the
subclass `die` dispatched: attacker is the player sprite
(`asteroid.hurt(self.sprite)` in `check_projectile_collisions`), so the
subtracted damage is the player's. -/
def asteroidHurt (g : GameState) (a : Asteroid) : GameState :=
  if !a.can_damage then g
  else if a.health ≤ 0 then asteroidDie g a
  else { g with asteroids := setSidHealth a.sid (a.health - g.player.damage) g.asteroids }

/-- The projectile-vs-asteroid test of `check_projectile_collisions`
(`sprite.py` line 257): `projectile.collide_point(asteroid.image)`. -/
def projHits (p : Projectile) (a : Asteroid) : Bool :=
  collidePoint p.x p.y a.x a.y a.width a.height

/-- The scan of `check_projectile_collisions` (`sprite.py` lines
254-261): the first asteroid the projectile overlaps, if any. -/
def firstHit (asts : List Asteroid) (p : Projectile) : Option Asteroid :=
  asts.find? (projHits p)

/-- ShipController.update_projectiles (`sprite.py` lines 241-252) as
Python executes it: a `for` loop holds an index into the projectile
list while the body removes elements from that same list, so a removal
shifts the successor into the current slot and the loop then skips it.
`i` is the loop index held by the iterator; it advances on every
iteration, removal or not.  On a hit the colliding asteroid is hurt
first and the projectile destroyed after, mirroring the call order.
`rands i` supplies the tick's random decrement for the projectile
advanced at index `i`.  The fuel argument dominates the number of
iterations (each iteration decreases `length - i` by at least one). -/
def updateProjLoop (rands : Nat → Nat) : GameState → Nat → Nat → GameState
  | g, _, 0 => g
  | g, i, fuel + 1 =>
    match g.projectiles[i]? with
    | none => g
    | some p =>
      if p.y ≤ 0 then
        updateProjLoop rands (destroyProjectile g p.pid) (i + 1) fuel
      else
        let g1 := { g with testedIds := p.pid :: g.testedIds }
        match firstHit g1.asteroids p with
        | some a =>
          updateProjLoop rands (destroyProjectile (asteroidHurt g1 a) p.pid) (i + 1) fuel
        | none =>
          updateProjLoop rands
            { g1 with
                projectiles := g1.projectiles.set i { p with y := p.y - (rands i : Int) },
                movedIds := p.pid :: g1.movedIds }
            (i + 1) fuel

/-- ShipController.update_projectiles, run from the start of the list
with enough fuel to finish the pass. -/
def updateProjectiles (g : GameState) (rands : Nat → Nat) : GameState :=
  updateProjLoop rands g 0 g.projectiles.length

/-- Ship.die (`sprite.py` lines 328-330): an explosion at the player's
position (`parent.explode`, modelled from the spec) and the end of the
round (`parent.end`, modelled from the spec). -/
def shipDie (g : GameState) : GameState :=
  { g with explosions := (g.px, g.py) :: g.explosions, ended := true }

/-- The player side of `Sprite.hurt` (`sprite.py` lines 51-58) with
`Ship.die` dispatched; the attacker is the colliding asteroid. -/
def playerHurtBy (g : GameState) (a : Asteroid) : GameState :=
  if !g.player.can_damage then g
  else if g.player.health ≤ 0 then shipDie g
  else { g with player := { g.player with health := g.player.health - a.damage } }

/-- ShipController.check_player_collisions (`sprite.py` lines 263-267):
the first asteroid whose position lies within the player's visual
bounds (`asteroid.image.collide_point(self.sprite.image)`) hurts the
player, and the scan returns. -/
def checkPlayerCollisions (g : GameState) : GameState :=
  match g.asteroids.find? (fun a => collidePoint a.x a.y g.px g.py g.pwidth g.pheight) with
  | some a => playerHurtBy g a
  | none => g

/-- One full `ShipController.move` frame (`sprite.py` lines 219-239):
movement, the fire gate, the projectile pass, then the player-collision
scan. -/
def moveFrame (g : GameState) (rands : Nat → Nat) : GameState :=
  checkPlayerCollisions (updateProjectiles (firePhase (movePhase g)) rands)

/-- ShipController.destroy_projectiles (`sprite.py` lines 293-295) as
Python executes it: the `for` loop's index advances every iteration
while `destroy_projectile` removes the current element, so the element
that shifted into the current slot is skipped.  Returns the final
projectile list and `destroy()`-record list. -/
def destroyLoop : List Projectile → List Nat → Nat → Nat → List Projectile × List Nat
  | projs, destroyed, _, 0 => (projs, destroyed)
  | projs, destroyed, i, fuel + 1 =>
    match projs[i]? with
    | none => (projs, destroyed)
    | some p => destroyLoop (removeFirstPid p.pid projs) (p.pid :: destroyed) (i + 1) fuel

/-- ShipController.destroy_projectiles applied to the game state. -/
def destroyProjectiles (g : GameState) : GameState :=
  let r := destroyLoop g.projectiles g.destroyedIds 0 g.projectiles.length
  { g with projectiles := r.1, destroyedIds := r.2 }

/-- ShipController.destroy (`sprite.py` lines 297-314) restricted to the
state tracked here: the sound-array teardown and the ten `unbind` calls
touch only the missing collaborator modules; the projectile teardown is
`destroy_projectiles`. -/
def shipControllerDestroy (g : GameState) : GameState :=
  destroyProjectiles g

/-- The even-indexed elements of a list (positions 0, 2, 4, ...). -/
def evenIdx : List α → List α
  | [] => []
  | [a] => [a]
  | a :: _ :: t => a :: evenIdx t

/-- The odd-indexed elements of a list (positions 1, 3, 5, ...). -/
def oddIdx : List α → List α
  | [] => []
  | [_] => []
  | _ :: b :: t => b :: oddIdx t

/-! ### Concrete states used by counterexamples and witnesses -/

/-- A silent audio handle. -/
def snd0 : Snd := ⟨false, 0, 0⟩

/-- The freshly created player `Ship` (`sprite.py` lines 316-326):
health 100, damage 5, no attachment. -/
def player0 : Sprite :=
  { health := 100, damage := 5, can_damage := true, attachment := none,
    attachment_sound := snd0, attachment_deny_sound := snd0, setupsRun := [] }

/-- A plain round state: the player mid-screen on an 800 × 600 display,
no inputs held, no projectiles, no asteroids. -/
def baseState : GameState :=
  { player := player0, px := 400, py := 500, pwidth := 30, pheight := 30,
    displayWidth := 800, displayHeight := 600,
    moving_forward := false, moving_backward := false, moving_right := false,
    moving_left := false, firing := false, current_distance := 0,
    projectiles := [], asteroids := [], explosions := [], removals := [],
    ended := false, nextId := 0, fireSoundRestarts := 0,
    destroyedIds := [], movedIds := [], testedIds := [] }

/-- A degenerate random stream: every projectile decrement is zero
(`random.random()` may return 0.0). -/
def r0 : Nat → Nat := fun _ => 0

/-- Runs `n` consecutive `ShipController.move` frames with the zero
random stream. -/
def iterFrames (n : Nat) (g : GameState) : GameState :=
  Nat.rec g (fun _ s => moveFrame s r0) n

/-- A power-up carrier (`MechanismAsteroid`, `sprite.py` lines 371-392):
health 0, damage 0, positioned on top of the player of `baseState`. -/
def mechAst : Asteroid :=
  { sid := 7, x := 400, y := 500, width := 20, height := 20, health := 0,
    damage := 0, can_damage := true, is_mechanism := true, akind := .shield }

/-- A plain asteroid (`sprite.py` lines 347-369) with damage 1,
positioned on top of the player of `baseState`. -/
def rockAst : Asteroid :=
  { sid := 3, x := 400, y := 500, width := 20, height := 20, health := 10,
    damage := 1, can_damage := true, is_mechanism := false, akind := .shield }

/-- Whether the projectile list carries pairwise distinct object
identities; true of the real program, where every bullet is a fresh
object. -/
def pidsNodup (g : GameState) : Prop :=
  (g.projectiles.map Projectile.pid).Nodup

/-- The player-geometry-and-score projection of a frame state: position,
sizes, display bounds and the distance counter. -/
def frameStats (g : GameState) : Int × Int × Nat × Nat × Nat × Nat × Int :=
  (g.px, g.py, g.pwidth, g.pheight, g.displayWidth, g.displayHeight, g.current_distance)

/-- The player's visual bounds lie inside the play area; the property
claimed invariant by the spec. -/
def inBounds (g : GameState) : Prop :=
  0 ≤ g.px - (g.pwidth : Int) / 2 ∧ g.px + (g.pwidth : Int) / 2 ≤ (g.displayWidth : Int) ∧
  0 ≤ g.py - (g.pheight : Int) / 2 ∧ g.py + (g.pheight : Int) / 2 ≤ (g.displayHeight : Int)

/-- The invariant the clamping code actually maintains: each bounding
edge overshoots the play area by less than one move delta (the left,
right and top edges by at most `speed - 1 = 14`, the bottom edge by at
most `speed / 2 - 1 = 6`). -/
def nearBounds (g : GameState) : Prop :=
  -14 ≤ g.px - (g.pwidth : Int) / 2 ∧ g.px + (g.pwidth : Int) / 2 ≤ (g.displayWidth : Int) + 14 ∧
  -14 ≤ g.py - (g.pheight : Int) / 2 ∧ g.py + (g.pheight : Int) / 2 ≤ (g.displayHeight : Int) + 6

instance (g : GameState) : Decidable (inBounds g) := by unfold inBounds; infer_instance

instance (g : GameState) : Decidable (nearBounds g) := by unfold nearBounds; infer_instance

instance (g : GameState) : Decidable (pidsNodup g) := by unfold pidsNodup; infer_instance

/-- The `baseState` player holding the fire key. -/
def c1fireState : GameState := { baseState with firing := true }

/-- A power-up carrier sitting on top of the attachment-free player. -/
def c2state : GameState := { baseState with asteroids := [mechAst] }

/-- The player on 1 health with an overlapping damage-1 asteroid. -/
def c4state : GameState :=
  { baseState with player := { player0 with health := 1 }, asteroids := [rockAst] }

/-- A shield attachment object, identity 9. -/
def attShield : Attachment := ⟨9, .shield, none⟩

/-- A full-health attachment object, identity 10. -/
def attFull : Attachment := ⟨10, .fullHealth, none⟩

/-- A sprite already holding the shield attachment. -/
def holdingSprite : Sprite := { player0 with attachment := some attShield }

/-- The player one step above the position where the forward clamp
stops working: its top edge is at 7, inside the play area, but a
15-pixel forward move crosses the boundary. -/
def c6state : GameState := { baseState with py := 22, moving_forward := true }

/-- Two projectiles in flight, about to be torn down. -/
def c7state : GameState :=
  { baseState with projectiles := [⟨0, 1, 100⟩, ⟨1, 2, 100⟩] }

/-- Three projectiles; the first sits on the top bound and will be
destroyed, the second is the skip victim, the third is processed. -/
def c10state : GameState :=
  { baseState with projectiles := [⟨0, 10, 0⟩, ⟨1, 20, 50⟩, ⟨2, 30, 60⟩] }

/-! ### List helper lemmas -/

theorem removeFirstPid_length_le (x : Nat) (l : List Projectile) :
    (removeFirstPid x l).length ≤ l.length := by
  induction l with
  | nil => simp [removeFirstPid]
  | cons q t ih =>
    simp only [removeFirstPid]
    split
    · exact Nat.le_succ _
    · simpa using Nat.succ_le_succ ih

theorem removeFirstPid_sublist (x : Nat) (l : List Projectile) :
    (removeFirstPid x l).Sublist l := by
  induction l with
  | nil => simp [removeFirstPid]
  | cons q t ih =>
    simp only [removeFirstPid]
    split
    · exact List.sublist_cons_self q t
    · exact ih.cons₂ q

theorem removeFirstPid_eq_of_nodup (l : List Projectile) (i : Nat) (p : Projectile)
    (hnd : (l.map Projectile.pid).Nodup) (h : l[i]? = some p) :
    removeFirstPid p.pid l = l.take i ++ l.drop (i + 1) := by
  induction l generalizing i with
  | nil => simp at h
  | cons q t ih =>
    cases i with
    | zero =>
      simp only [List.getElem?_cons_zero, Option.some.injEq] at h
      cases h
      simp [removeFirstPid]
    | succ j =>
      simp only [List.getElem?_cons_succ] at h
      simp only [List.map, List.nodup_cons] at hnd
      have hpmem : p.pid ∈ t.map Projectile.pid :=
        List.mem_map_of_mem _ (List.getElem?_mem h)
      have hne : ¬(q.pid = p.pid) := fun he => hnd.1 (he ▸ hpmem)
      simp only [removeFirstPid, if_neg hne]
      simp [ih j hnd.2 h]

theorem set_self_of_getElem {α : Type} (l : List α) (i : Nat) (v : α) (h : l[i]? = some v) :
    l.set i v = l := by
  induction l generalizing i with
  | nil => rfl
  | cons a t ih =>
    cases i with
    | zero =>
      simp only [List.getElem?_cons_zero, Option.some.injEq] at h
      simp [h]
    | succ j =>
      simp only [List.getElem?_cons_succ] at h
      simp [List.set, ih j h]

theorem drop_cons_of_getElem {α : Type} (l : List α) (i : Nat) (v : α) (h : l[i]? = some v) :
    l.drop i = v :: l.drop (i + 1) := by
  induction l generalizing i with
  | nil => simp at h
  | cons a t ih =>
    cases i with
    | zero =>
      simp only [List.getElem?_cons_zero, Option.some.injEq] at h
      simp [h]
    | succ j =>
      simp only [List.getElem?_cons_succ] at h
      simpa using ih j h

theorem set_drop_succ {α : Type} (l : List α) (i : Nat) (v : α) :
    (l.set i v).drop (i + 1) = l.drop (i + 1) := by
  induction l generalizing i with
  | nil => rfl
  | cons a t ih =>
    cases i with
    | zero => rfl
    | succ j => simpa using ih j

theorem removal_getElem_lt (l : List Projectile) (i j : Nat) (p : Projectile)
    (hnd : (l.map Projectile.pid).Nodup) (hp : l[i]? = some p) (hj : j < i) :
    (removeFirstPid p.pid l)[j]? = l[j]? := by
  induction l generalizing i j with
  | nil => simp at hp
  | cons q t ih =>
    cases i with
    | zero => omega
    | succ k =>
      simp only [List.getElem?_cons_succ] at hp
      simp only [List.map, List.nodup_cons] at hnd
      have hpmem : p.pid ∈ t.map Projectile.pid :=
        List.mem_map_of_mem _ (List.getElem?_mem hp)
      have hne : ¬(q.pid = p.pid) := fun he => hnd.1 (he ▸ hpmem)
      simp only [removeFirstPid, if_neg hne]
      cases j with
      | zero => simp
      | succ m =>
        simp only [List.getElem?_cons_succ]
        exact ih k m hnd.2 hp (by omega)

theorem removal_getElem_at (l : List Projectile) (i : Nat) (p : Projectile)
    (hnd : (l.map Projectile.pid).Nodup) (hp : l[i]? = some p) :
    (removeFirstPid p.pid l)[i]? = l[i + 1]? := by
  induction l generalizing i with
  | nil => simp at hp
  | cons q t ih =>
    cases i with
    | zero =>
      simp only [List.getElem?_cons_zero, Option.some.injEq] at hp
      subst hp
      simp [removeFirstPid]
    | succ k =>
      simp only [List.getElem?_cons_succ] at hp
      simp only [List.map, List.nodup_cons] at hnd
      have hpmem : p.pid ∈ t.map Projectile.pid :=
        List.mem_map_of_mem _ (List.getElem?_mem hp)
      have hne : ¬(q.pid = p.pid) := fun he => hnd.1 (he ▸ hpmem)
      simp only [removeFirstPid, if_neg hne, List.getElem?_cons_succ]
      exact ih k hnd.2 hp

theorem removal_drop (l : List Projectile) (i : Nat) (p : Projectile)
    (hnd : (l.map Projectile.pid).Nodup) (hp : l[i]? = some p) :
    (removeFirstPid p.pid l).drop (i + 1) = l.drop (i + 2) := by
  induction l generalizing i with
  | nil => simp at hp
  | cons q t ih =>
    cases i with
    | zero =>
      simp only [List.getElem?_cons_zero, Option.some.injEq] at hp
      subst hp
      simp [removeFirstPid]
    | succ k =>
      simp only [List.getElem?_cons_succ] at hp
      simp only [List.map, List.nodup_cons] at hnd
      have hpmem : p.pid ∈ t.map Projectile.pid :=
        List.mem_map_of_mem _ (List.getElem?_mem hp)
      have hne : ¬(q.pid = p.pid) := fun he => hnd.1 (he ▸ hpmem)
      simp only [removeFirstPid, if_neg hne, List.drop_succ_cons]
      exact ih k hnd.2 hp

theorem removal_take (l : List Projectile) (i : Nat) (p : Projectile)
    (hnd : (l.map Projectile.pid).Nodup) (hp : l[i]? = some p) :
    (removeFirstPid p.pid l).take (i + 1) = l.take i ++ (l.drop (i + 1)).take 1 := by
  induction l generalizing i with
  | nil => simp at hp
  | cons q t ih =>
    cases i with
    | zero =>
      simp only [List.getElem?_cons_zero, Option.some.injEq] at hp
      subst hp
      simp [removeFirstPid]
    | succ k =>
      simp only [List.getElem?_cons_succ] at hp
      simp only [List.map, List.nodup_cons] at hnd
      have hpmem : p.pid ∈ t.map Projectile.pid :=
        List.mem_map_of_mem _ (List.getElem?_mem hp)
      have hne : ¬(q.pid = p.pid) := fun he => hnd.1 (he ▸ hpmem)
      simp only [removeFirstPid, if_neg hne, List.take_succ_cons, List.drop_succ_cons]
      simpa using ih k hnd.2 hp

theorem map_mem_of_subset {α β : Type} (f : α → β) {s t : List α} (h : s ⊆ t)
    {x : β} (hx : x ∈ s.map f) : x ∈ t.map f := by
  obtain ⟨a, ha, rfl⟩ := List.mem_map.mp hx
  exact List.mem_map_of_mem f (h ha)

theorem drop_succ_subset {α : Type} (l : List α) (n : Nat) : l.drop (n + 1) ⊆ l.drop n := by
  induction l generalizing n with
  | nil => simp
  | cons a t ih =>
    cases n with
    | zero => exact List.subset_cons_of_subset a fun x hx => hx
    | succ m => simpa using ih m

theorem drop_add_subset {α : Type} (l : List α) (i k : Nat) : l.drop (i + k) ⊆ l.drop i := by
  induction k with
  | zero => simp
  | succ m ih => exact fun x hx => ih (drop_succ_subset l (i + m) hx)

theorem asteroidHurt_keeps (g : GameState) (a : Asteroid) :
    (asteroidHurt g a).projectiles = g.projectiles ∧
    (asteroidHurt g a).movedIds = g.movedIds ∧
    (asteroidHurt g a).testedIds = g.testedIds ∧
    (asteroidHurt g a).destroyedIds = g.destroyedIds ∧
    frameStats (asteroidHurt g a) = frameStats g := by
  unfold asteroidHurt asteroidDie removeAsteroid
  split
  · exact ⟨rfl, rfl, rfl, rfl, rfl⟩
  · split
    · split
      · exact ⟨rfl, rfl, rfl, rfl, rfl⟩
      · exact ⟨rfl, rfl, rfl, rfl, rfl⟩
    · exact ⟨rfl, rfl, rfl, rfl, rfl⟩

theorem pidsNodup_destroy (g : GameState) (x : Nat) (h : pidsNodup g) :
    pidsNodup (destroyProjectile g x) := by
  have hs := (removeFirstPid_sublist x g.projectiles).map Projectile.pid
  exact h.sublist hs

theorem updateProjLoop_length_le (rands : Nat → Nat) :
    ∀ (fuel : Nat) (g : GameState) (i : Nat),
      (updateProjLoop rands g i fuel).projectiles.length ≤ g.projectiles.length := by
  intro fuel
  induction fuel with
  | zero => intro g i; exact Nat.le_refl _
  | succ f ih =>
    intro g i
    rw [updateProjLoop]
    cases hp : g.projectiles[i]? with
    | none => exact Nat.le_refl _
    | some p =>
      by_cases hy : p.y ≤ 0
      · simp only [hy, if_true]
        calc (updateProjLoop rands (destroyProjectile g p.pid) (i + 1) f).projectiles.length
            ≤ (destroyProjectile g p.pid).projectiles.length := ih _ _
          _ ≤ g.projectiles.length := removeFirstPid_length_le _ _
      · simp only [hy, if_false]
        cases hh : firstHit g.asteroids p with
        | some a =>
          simp only []
          calc (updateProjLoop rands
                  (destroyProjectile (asteroidHurt { g with testedIds := p.pid :: g.testedIds } a) p.pid)
                  (i + 1) f).projectiles.length
              ≤ (destroyProjectile (asteroidHurt { g with testedIds := p.pid :: g.testedIds } a) p.pid).projectiles.length := ih _ _
            _ ≤ (asteroidHurt { g with testedIds := p.pid :: g.testedIds } a).projectiles.length := by
                  exact removeFirstPid_length_le _ _
            _ = g.projectiles.length := by
                  rw [(asteroidHurt_keeps _ _).1]
        | none =>
          simp only []
          calc (updateProjLoop rands _ (i + 1) f).projectiles.length
              ≤ (g.projectiles.set i { p with y := p.y - (rands i : Int) }).length := ih _ _
            _ = g.projectiles.length := List.length_set ..

theorem updateProjLoop_untouchedBelow (rands : Nat → Nat) :
    ∀ (fuel : Nat) (g : GameState) (i j : Nat), j < i → pidsNodup g →
      (updateProjLoop rands g i fuel).projectiles[j]? = g.projectiles[j]? := by
  intro fuel
  induction fuel with
  | zero => intro g i j hj hnd; rfl
  | succ f ih =>
    intro g i j hj hnd
    rw [updateProjLoop]
    cases hp : g.projectiles[i]? with
    | none => rfl
    | some p =>
      by_cases hy : p.y ≤ 0
      · simp only [hy, if_true]
        rw [ih (destroyProjectile g p.pid) (i + 1) j (by omega) (pidsNodup_destroy g p.pid hnd)]
        exact removal_getElem_lt g.projectiles i j p hnd hp hj
      · simp only [hy, if_false]
        cases hh : firstHit g.asteroids p with
        | some a =>
          simp only []
          set g1 : GameState := { g with testedIds := p.pid :: g.testedIds } with hg1
          have hnd1 : pidsNodup (asteroidHurt g1 a) := by
            unfold pidsNodup
            rw [(asteroidHurt_keeps g1 a).1]
            exact hnd
          rw [ih (destroyProjectile (asteroidHurt g1 a) p.pid) (i + 1) j (by omega)
                (pidsNodup_destroy _ p.pid hnd1)]
          show (removeFirstPid p.pid (asteroidHurt g1 a).projectiles)[j]? = g.projectiles[j]?
          rw [(asteroidHurt_keeps g1 a).1]
          exact removal_getElem_lt g.projectiles i j p hnd hp hj
        | none =>
          simp only []
          have hnd2 : pidsNodup
              { g with
                  testedIds := p.pid :: g.testedIds,
                  projectiles := g.projectiles.set i { p with y := p.y - (rands i : Int) },
                  movedIds := p.pid :: g.movedIds } := by
            unfold pidsNodup
            show (List.map Projectile.pid (g.projectiles.set i _)).Nodup
            rw [List.map_set]
            have hm : (g.projectiles.map Projectile.pid)[i]? = some p.pid := by
              rw [List.getElem?_map, hp]; rfl
            rw [set_self_of_getElem _ i _ hm]
            exact hnd
          rw [ih _ (i + 1) j (by omega) hnd2]
          show (g.projectiles.set i { p with y := p.y - (rands i : Int) })[j]? = g.projectiles[j]?
          exact List.getElem?_set_ne (by omega)

theorem updateProjLoop_moved (rands : Nat → Nat) :
    ∀ (fuel : Nat) (g : GameState) (i : Nat) (x : Nat), pidsNodup g →
      x ∈ (updateProjLoop rands g i fuel).movedIds →
      x ∈ g.movedIds ∨ x ∈ (g.projectiles.drop i).map Projectile.pid := by
  intro fuel
  induction fuel with
  | zero => intro g i x hnd hx; exact Or.inl hx
  | succ f ih =>
    intro g i x hnd hx
    rw [updateProjLoop] at hx
    cases hp : g.projectiles[i]? with
    | none => rw [hp] at hx; exact Or.inl hx
    | some p =>
      rw [hp] at hx
      have hdropi : g.projectiles.drop i = p :: g.projectiles.drop (i + 1) :=
        drop_cons_of_getElem _ i p hp
      by_cases hy : p.y ≤ 0
      · simp only [hy, if_true] at hx
        rcases ih (destroyProjectile g p.pid) (i + 1) x (pidsNodup_destroy g p.pid hnd) hx with h | h
        · exact Or.inl h
        · refine Or.inr ?_
          have hd : (destroyProjectile g p.pid).projectiles.drop (i + 1) =
              g.projectiles.drop (i + 2) := removal_drop g.projectiles i p hnd hp
          rw [hd] at h
          refine map_mem_of_subset _ ?_ h
          rw [hdropi]
          exact fun z hz => List.mem_cons_of_mem p (drop_succ_subset _ _ hz)
      · simp only [hy, if_false] at hx
        cases hh : firstHit g.asteroids p with
        | some a =>
          rw [hh] at hx
          simp only [] at hx
          set g1 : GameState := { g with testedIds := p.pid :: g.testedIds } with hg1
          have hnd1 : pidsNodup (asteroidHurt g1 a) := by
            unfold pidsNodup
            rw [(asteroidHurt_keeps g1 a).1]
            exact hnd
          rcases ih (destroyProjectile (asteroidHurt g1 a) p.pid) (i + 1) x
              (pidsNodup_destroy _ p.pid hnd1) hx with h | h
          · rw [show (destroyProjectile (asteroidHurt g1 a) p.pid).movedIds = g.movedIds from
              (asteroidHurt_keeps g1 a).2.1] at h
            exact Or.inl h
          · refine Or.inr ?_
            have hd : (destroyProjectile (asteroidHurt g1 a) p.pid).projectiles.drop (i + 1) =
                g.projectiles.drop (i + 2) := by
              show (removeFirstPid p.pid (asteroidHurt g1 a).projectiles).drop (i + 1) = _
              rw [(asteroidHurt_keeps g1 a).1]
              exact removal_drop g.projectiles i p hnd hp
            rw [hd] at h
            refine map_mem_of_subset _ ?_ h
            rw [hdropi]
            exact fun z hz => List.mem_cons_of_mem p (drop_succ_subset _ _ hz)
        | none =>
          rw [hh] at hx
          simp only [] at hx
          have hnd2 : pidsNodup
              { g with
                  testedIds := p.pid :: g.testedIds,
                  projectiles := g.projectiles.set i { p with y := p.y - (rands i : Int) },
                  movedIds := p.pid :: g.movedIds } := by
            unfold pidsNodup
            show (List.map Projectile.pid (g.projectiles.set i _)).Nodup
            rw [List.map_set]
            have hm : (g.projectiles.map Projectile.pid)[i]? = some p.pid := by
              rw [List.getElem?_map, hp]; rfl
            rw [set_self_of_getElem _ i _ hm]
            exact hnd
          rcases ih _ (i + 1) x hnd2 hx with h | h
          · rcases List.mem_cons.mp h with h | h
            · refine Or.inr ?_
              rw [hdropi, h]
              exact List.mem_map_of_mem _ (List.mem_cons_self p _)
            · exact Or.inl h
          · refine Or.inr ?_
            have hd : ((g.projectiles.set i { p with y := p.y - (rands i : Int) }).drop (i + 1)) =
                g.projectiles.drop (i + 1) := set_drop_succ _ i _
            rw [hd] at h
            refine map_mem_of_subset _ ?_ h
            rw [hdropi]
            exact fun z hz => List.mem_cons_of_mem p hz

theorem updateProjLoop_tested (rands : Nat → Nat) :
    ∀ (fuel : Nat) (g : GameState) (i : Nat) (x : Nat), pidsNodup g →
      x ∈ (updateProjLoop rands g i fuel).testedIds →
      x ∈ g.testedIds ∨ x ∈ (g.projectiles.drop i).map Projectile.pid := by
  intro fuel
  induction fuel with
  | zero => intro g i x hnd hx; exact Or.inl hx
  | succ f ih =>
    intro g i x hnd hx
    rw [updateProjLoop] at hx
    cases hp : g.projectiles[i]? with
    | none => rw [hp] at hx; exact Or.inl hx
    | some p =>
      rw [hp] at hx
      have hdropi : g.projectiles.drop i = p :: g.projectiles.drop (i + 1) :=
        drop_cons_of_getElem _ i p hp
      have hmemp : p.pid ∈ (g.projectiles.drop i).map Projectile.pid := by
        rw [hdropi]; exact List.mem_map_of_mem _ (List.mem_cons_self p _)
      by_cases hy : p.y ≤ 0
      · simp only [hy, if_true] at hx
        rcases ih (destroyProjectile g p.pid) (i + 1) x (pidsNodup_destroy g p.pid hnd) hx with h | h
        · exact Or.inl h
        · refine Or.inr ?_
          have hd : (destroyProjectile g p.pid).projectiles.drop (i + 1) =
              g.projectiles.drop (i + 2) := removal_drop g.projectiles i p hnd hp
          rw [hd] at h
          refine map_mem_of_subset _ ?_ h
          rw [hdropi]
          exact fun z hz => List.mem_cons_of_mem p (drop_succ_subset _ _ hz)
      · simp only [hy, if_false] at hx
        cases hh : firstHit g.asteroids p with
        | some a =>
          rw [hh] at hx
          simp only [] at hx
          set g1 : GameState := { g with testedIds := p.pid :: g.testedIds } with hg1
          have hnd1 : pidsNodup (asteroidHurt g1 a) := by
            unfold pidsNodup
            rw [(asteroidHurt_keeps g1 a).1]
            exact hnd
          rcases ih (destroyProjectile (asteroidHurt g1 a) p.pid) (i + 1) x
              (pidsNodup_destroy _ p.pid hnd1) hx with h | h
          · rw [show (destroyProjectile (asteroidHurt g1 a) p.pid).testedIds = p.pid :: g.testedIds from
              (asteroidHurt_keeps g1 a).2.2.1] at h
            rcases List.mem_cons.mp h with h | h
            · exact Or.inr (h ▸ hmemp)
            · exact Or.inl h
          · refine Or.inr ?_
            have hd : (destroyProjectile (asteroidHurt g1 a) p.pid).projectiles.drop (i + 1) =
                g.projectiles.drop (i + 2) := by
              show (removeFirstPid p.pid (asteroidHurt g1 a).projectiles).drop (i + 1) = _
              rw [(asteroidHurt_keeps g1 a).1]
              exact removal_drop g.projectiles i p hnd hp
            rw [hd] at h
            refine map_mem_of_subset _ ?_ h
            rw [hdropi]
            exact fun z hz => List.mem_cons_of_mem p (drop_succ_subset _ _ hz)
        | none =>
          rw [hh] at hx
          simp only [] at hx
          have hnd2 : pidsNodup
              { g with
                  testedIds := p.pid :: g.testedIds,
                  projectiles := g.projectiles.set i { p with y := p.y - (rands i : Int) },
                  movedIds := p.pid :: g.movedIds } := by
            unfold pidsNodup
            show (List.map Projectile.pid (g.projectiles.set i _)).Nodup
            rw [List.map_set]
            have hm : (g.projectiles.map Projectile.pid)[i]? = some p.pid := by
              rw [List.getElem?_map, hp]; rfl
            rw [set_self_of_getElem _ i _ hm]
            exact hnd
          rcases ih _ (i + 1) x hnd2 hx with h | h
          · rcases List.mem_cons.mp h with h | h
            · exact Or.inr (h ▸ hmemp)
            · exact Or.inl h
          · refine Or.inr ?_
            have hd : ((g.projectiles.set i { p with y := p.y - (rands i : Int) }).drop (i + 1)) =
                g.projectiles.drop (i + 1) := set_drop_succ _ i _
            rw [hd] at h
            refine map_mem_of_subset _ ?_ h
            rw [hdropi]
            exact fun z hz => List.mem_cons_of_mem p hz

theorem destroyProjectile_stats (g : GameState) (x : Nat) :
    frameStats (destroyProjectile g x) = frameStats g := rfl

theorem updateProjLoop_stats (rands : Nat → Nat) :
    ∀ (fuel : Nat) (g : GameState) (i : Nat),
      frameStats (updateProjLoop rands g i fuel) = frameStats g := by
  intro fuel
  induction fuel with
  | zero => intro g i; rfl
  | succ f ih =>
    intro g i
    rw [updateProjLoop]
    cases hp : g.projectiles[i]? with
    | none => rfl
    | some p =>
      by_cases hy : p.y ≤ 0
      · simp only [hy, if_true]
        rw [ih]
        exact destroyProjectile_stats g p.pid
      · simp only [hy, if_false]
        cases hh : firstHit g.asteroids p with
        | some a =>
          simp only []
          rw [ih]
          exact (asteroidHurt_keeps _ a).2.2.2.2
        | none =>
          simp only []
          rw [ih]
          rfl

theorem superMove_shape (g : GameState) :
    ∃ pl, superMove g = { g with player := pl } := by
  unfold superMove
  rcases hA : g.player.attachment with _ | att
  · exact ⟨g.player, by simp⟩
  · dsimp only
    rcases hI : att.imagePos with _ | q
    · exact ⟨g.player, by simp⟩
    · exact ⟨_, rfl⟩

theorem moveShip_py (g : GameState) :
    (moveShip g).py =
      if g.moving_forward ∧ ¬(g.py - (g.pheight : Int) / 2 ≤ 0) then g.py - shipSpeed
      else if g.moving_backward ∧ ¬(g.py + (g.pheight : Int) / 2 ≥ (g.displayHeight : Int)) then
        g.py + shipSpeed / 2
      else g.py := by
  unfold moveShip
  split_ifs <;> rfl

theorem moveShip_px (g : GameState) :
    (moveShip g).px =
      if g.moving_right ∧ ¬(g.px + (g.pwidth : Int) / 2 ≥ (g.displayWidth : Int)) then
        g.px + shipSpeed
      else if g.moving_left ∧ ¬(g.px - (g.pwidth : Int) / 2 ≤ 0) then g.px - shipSpeed
      else g.px := by
  unfold moveShip
  split_ifs <;> rfl

theorem moveShip_distance (g : GameState) :
    (moveShip g).current_distance =
      if ¬(g.moving_forward ∧ ¬(g.py - (g.pheight : Int) / 2 ≤ 0)) ∧
         (g.moving_backward ∧ ¬(g.py + (g.pheight : Int) / 2 ≥ (g.displayHeight : Int))) then
        g.current_distance + shipSpeed - shipSpeed / 2
      else g.current_distance + shipSpeed := by
  unfold moveShip
  split_ifs <;> first | rfl | tauto

theorem moveShip_sizes (g : GameState) :
    (moveShip g).pwidth = g.pwidth ∧ (moveShip g).pheight = g.pheight ∧
    (moveShip g).displayWidth = g.displayWidth ∧ (moveShip g).displayHeight = g.displayHeight ∧
    (moveShip g).projectiles = g.projectiles ∧ (moveShip g).asteroids = g.asteroids ∧
    (moveShip g).firing = g.firing ∧ (moveShip g).player = g.player ∧
    (moveShip g).nextId = g.nextId ∧ (moveShip g).explosions = g.explosions ∧
    (moveShip g).ended = g.ended ∧ (moveShip g).removals = g.removals := by
  unfold moveShip
  split_ifs <;>
    exact ⟨rfl, rfl, rfl, rfl, rfl, rfl, rfl, rfl, rfl, rfl, rfl, rfl⟩

theorem firePhase_proj (g : GameState) :
    (firePhase g).projectiles =
      if g.firing ∧ g.projectiles.length < maximumProjectiles then
        g.projectiles ++
          [⟨g.nextId, g.px - (g.pwidth : Int) / 2, g.py⟩,
           ⟨g.nextId + 1, g.px + (g.pwidth : Int) / 2, g.py⟩]
      else g.projectiles := by
  unfold firePhase fireProjectile
  split_ifs <;> rfl

theorem firePhase_stats (g : GameState) : frameStats (firePhase g) = frameStats g := by
  unfold firePhase fireProjectile
  split_ifs <;> rfl

theorem checkPlayerCollisions_keeps (g : GameState) :
    (checkPlayerCollisions g).projectiles = g.projectiles ∧
    frameStats (checkPlayerCollisions g) = frameStats g := by
  unfold checkPlayerCollisions playerHurtBy shipDie
  cases g.asteroids.find? (fun a => collidePoint a.x a.y g.px g.py g.pwidth g.pheight) with
  | none => exact ⟨rfl, rfl⟩
  | some a => split_ifs <;> exact ⟨rfl, rfl⟩

theorem removal_length (l : List Projectile) (i : Nat) (p : Projectile)
    (hnd : (l.map Projectile.pid).Nodup) (hp : l[i]? = some p) :
    (removeFirstPid p.pid l).length + 1 = l.length := by
  induction l generalizing i with
  | nil => simp at hp
  | cons q t ih =>
    cases i with
    | zero =>
      simp only [List.getElem?_cons_zero, Option.some.injEq] at hp
      subst hp
      simp [removeFirstPid]
    | succ k =>
      simp only [List.getElem?_cons_succ] at hp
      simp only [List.map, List.nodup_cons] at hnd
      have hpmem : p.pid ∈ t.map Projectile.pid :=
        List.mem_map_of_mem _ (List.getElem?_mem hp)
      have hne : ¬(q.pid = p.pid) := fun he => hnd.1 (he ▸ hpmem)
      simp only [removeFirstPid, if_neg hne, List.length_cons]
      have := ih k hnd.2 hp
      omega

theorem drop_succ_tail {α : Type} (l : List α) (n : Nat) : l.drop (n + 1) = (l.drop n).tail := by
  induction l generalizing n with
  | nil => simp
  | cons a t ih =>
    cases n with
    | zero => rfl
    | succ m => simp only [List.drop_succ_cons]; exact ih m

theorem oddIdx_length {α : Type} : ∀ l : List α, (oddIdx l).length = l.length / 2
  | [] => by simp [oddIdx]
  | [_] => by simp [oddIdx]
  | _ :: b :: t => by
    simp only [oddIdx, List.length_cons, oddIdx_length t]
    omega

theorem destroyLoop_spec :
    ∀ (fuel : Nat) (projs : List Projectile) (d : List Nat) (i : Nat),
      (projs.map Projectile.pid).Nodup → projs.length - i ≤ fuel →
      destroyLoop projs d i fuel =
        (projs.take i ++ oddIdx (projs.drop i),
         ((evenIdx (projs.drop i)).map Projectile.pid).reverse ++ d) := by
  intro fuel
  induction fuel with
  | zero =>
    intro projs d i hnd hfuel
    have hlen : projs.length ≤ i := by omega
    rw [destroyLoop]
    rw [List.take_of_length_le hlen, List.drop_eq_nil_of_le hlen]
    simp [oddIdx, evenIdx]
  | succ f ih =>
    intro projs d i hnd hfuel
    rw [destroyLoop]
    cases hp : projs[i]? with
    | none =>
      have hlen : projs.length ≤ i := by
        by_contra hc
        push_neg at hc
        rw [List.getElem?_eq_getElem hc] at hp
        simp at hp
      rw [List.take_of_length_le hlen, List.drop_eq_nil_of_le hlen]
      simp [oddIdx, evenIdx]
    | some p =>
      show destroyLoop (removeFirstPid p.pid projs) (p.pid :: d) (i + 1) f = _
      have hi : i < projs.length := (List.getElem?_eq_some.mp hp).1
      have hndr : ((removeFirstPid p.pid projs).map Projectile.pid).Nodup :=
        hnd.sublist ((removeFirstPid_sublist p.pid projs).map Projectile.pid)
      have hlenr := removal_length projs i p hnd hp
      rw [ih (removeFirstPid p.pid projs) (p.pid :: d) (i + 1) hndr (by omega)]
      rw [removal_take projs i p hnd hp, removal_drop projs i p hnd hp]
      have hdropi : projs.drop i = p :: projs.drop (i + 1) := drop_cons_of_getElem _ i p hp
      have hdropii : projs.drop (i + 2) = (projs.drop (i + 1)).tail :=
        drop_succ_tail projs (i + 1)
      cases hd : projs.drop (i + 1) with
      | nil =>
        rw [hd] at hdropii
        rw [hdropi, hd, hdropii]
        simp [oddIdx, evenIdx]
      | cons b t2 =>
        rw [hd] at hdropii
        rw [hdropi, hd, hdropii]
        simp [oddIdx, evenIdx, List.append_assoc]

theorem map_pid_getElem (l : List Projectile) (i : Nat) (p : Projectile)
    (hp : l[i]? = some p) : (l.map Projectile.pid)[i]? = some p.pid := by
  rw [List.getElem?_map, hp]
  rfl

theorem pid_not_in_drop (l : List Projectile) (i : Nat) (q : Projectile)
    (hnd : (l.map Projectile.pid).Nodup) (hq : l[i + 1]? = some q) :
    q.pid ∉ (l.drop (i + 2)).map Projectile.pid := by
  have h1 : (l.map Projectile.pid).drop (i + 1) =
      q.pid :: (l.map Projectile.pid).drop (i + 2) :=
    drop_cons_of_getElem _ (i + 1) q.pid (map_pid_getElem l (i + 1) q hq)
  have h2 : ((l.map Projectile.pid).drop (i + 1)).Nodup :=
    hnd.sublist (List.drop_sublist ..)
  rw [h1, List.nodup_cons] at h2
  rw [List.map_drop]
  exact h2.1

theorem pid_succ_ne (l : List Projectile) (i : Nat) (p q : Projectile)
    (hnd : (l.map Projectile.pid).Nodup) (hp : l[i]? = some p) (hq : l[i + 1]? = some q) :
    p.pid ≠ q.pid := by
  have h1 : (l.map Projectile.pid).drop i =
      p.pid :: (l.map Projectile.pid).drop (i + 1) :=
    drop_cons_of_getElem _ i p.pid (map_pid_getElem l i p hp)
  have h1q : (l.map Projectile.pid).drop (i + 1) =
      q.pid :: (l.map Projectile.pid).drop (i + 2) :=
    drop_cons_of_getElem _ (i + 1) q.pid (map_pid_getElem l (i + 1) q hq)
  have h2 : ((l.map Projectile.pid).drop i).Nodup := hnd.sublist (List.drop_sublist ..)
  rw [h1, h1q, List.nodup_cons] at h2
  exact fun he => h2.1 (he ▸ List.mem_cons_self q.pid _)

/-! ### Claim theorems -/

/-- C3: for every sprite with `can_damage` true, `hurt` called while
health ≤ 0 invokes the death transition and leaves the sprite (and in
particular its health) unchanged, and `hurt` called while health > 0
subtracts the attacker's damage from health and does not invoke the
death transition. -/
theorem C3_hurt_checks_health_before_subtracting (s : Sprite) (d : Int)
    (hcd : s.can_damage = true) :
    (s.health ≤ 0 → Sprite.hurt s d = (s, true)) ∧
    (0 < s.health →
      (Sprite.hurt s d).1 = { s with health := s.health - d } ∧
      (Sprite.hurt s d).2 = false) := by
  unfold Sprite.hurt
  rw [hcd]
  constructor
  · intro h0
    rw [if_neg (by simp), if_pos h0]
  · intro hpos
    rw [if_neg (by simp), if_neg (by omega)]
    exact ⟨rfl, rfl⟩

/-- Witness for C3 at the fresh player (health 100, damage taken 5). -/
theorem C3_witness :
    player0.can_damage = true ∧ (0 : Int) < player0.health ∧
    ((Sprite.hurt player0 5).1 = { player0 with health := player0.health - 5 } ∧
     (Sprite.hurt player0 5).2 = false) :=
  ⟨by decide, by decide,
   (C3_hurt_checks_health_before_subtracting player0 5 (by decide)).2 (by decide)⟩

/-- C5: a sprite already holding an attachment rejects every offer (deny
sound restarted, slot and setup log untouched); a sprite holding none
accepts any non-`None` offer (slot filled, the offered attachment's
setup runs, accept sound restarted). -/
theorem C5_attachment_grant_semantics (s : Sprite) (a : Option Attachment) :
    (s.attachment.isSome = true →
      (s.setAttachment a).attachment = s.attachment ∧
      (s.setAttachment a).setupsRun = s.setupsRun ∧
      (s.setAttachment a).attachment_deny_sound.plays =
        s.attachment_deny_sound.plays + 1 ∧
      (s.setAttachment a).attachment_deny_sound.playing = true) ∧
    (s.attachment = none → a ≠ none →
      (s.setAttachment a).attachment = a ∧
      (∀ att, a = some att → att.aid ∈ (s.setAttachment a).setupsRun) ∧
      (s.setAttachment a).attachment_sound.plays = s.attachment_sound.plays + 1 ∧
      (s.setAttachment a).attachment_sound.playing = true) := by
  constructor
  · intro hs
    unfold Sprite.setAttachment
    rw [if_pos (by simp [hs])]
    refine ⟨rfl, rfl, ?_, ?_⟩ <;>
      · unfold Snd.playRestart Snd.play Snd.stop
        split_ifs <;> rfl
  · intro hn hne
    unfold Sprite.setAttachment
    have hcond : (s.attachment.isSome || a == s.attachment) = false := by
      rw [hn]
      simp only [Option.isSome_none, Bool.false_or]
      exact beq_eq_false_iff_ne.mpr hne
    rw [if_neg (by simp [hcond])]
    refine ⟨rfl, ?_, ?_, ?_⟩
    · intro att hatt
      subst hatt
      exact List.mem_cons_self att.aid _
    · unfold Snd.playRestart Snd.play Snd.stop
      split_ifs <;> rfl
    · unfold Snd.playRestart Snd.play Snd.stop
      split_ifs <;> rfl

/-- Witness for C5: the deny branch at a sprite holding the shield
attachment offered the full-health attachment, and the accept branch at
the fresh player offered the shield attachment. -/
theorem C5_witness :
    (holdingSprite.attachment.isSome = true ∧
      (holdingSprite.setAttachment (some attFull)).attachment = holdingSprite.attachment ∧
      (holdingSprite.setAttachment (some attFull)).setupsRun = holdingSprite.setupsRun ∧
      (holdingSprite.setAttachment (some attFull)).attachment_deny_sound.plays =
        holdingSprite.attachment_deny_sound.plays + 1 ∧
      (holdingSprite.setAttachment (some attFull)).attachment_deny_sound.playing = true) ∧
    (player0.attachment = none ∧
      (player0.setAttachment (some attShield)).attachment = some attShield ∧
      (∀ att, (some attShield : Option Attachment) = some att →
        att.aid ∈ (player0.setAttachment (some attShield)).setupsRun) ∧
      (player0.setAttachment (some attShield)).attachment_sound.plays =
        player0.attachment_sound.plays + 1 ∧
      (player0.setAttachment (some attShield)).attachment_sound.playing = true) :=
  ⟨⟨by decide, (C5_attachment_grant_semantics holdingSprite (some attFull)).1 (by decide)⟩,
   ⟨by decide, (C5_attachment_grant_semantics player0 (some attShield)).2 (by decide)
      (by decide)⟩⟩

/-- C8: a successful fire (fire intent held, in-flight count below the
cap) appends exactly two projectiles, at `x - width/2` and
`x + width/2`, both at the firer's vertical position; the two muzzle
abscissas are symmetric about the firer's horizontal center. -/
theorem C8_fire_spawns_symmetric_pair (g : GameState) (hf : g.firing = true)
    (hlen : g.projectiles.length < maximumProjectiles) :
    (firePhase g).projectiles =
      g.projectiles ++
        [⟨g.nextId, g.px - (g.pwidth : Int) / 2, g.py⟩,
         ⟨g.nextId + 1, g.px + (g.pwidth : Int) / 2, g.py⟩] ∧
    (g.px - (g.pwidth : Int) / 2) + (g.px + (g.pwidth : Int) / 2) = 2 * g.px := by
  constructor
  · rw [firePhase_proj, if_pos ⟨by simp [hf], hlen⟩]
  · ring

/-- Witness for C8 at the firing base state. -/
theorem C8_witness :
    c1fireState.firing = true ∧ c1fireState.projectiles.length < maximumProjectiles ∧
    ((firePhase c1fireState).projectiles =
      c1fireState.projectiles ++
        [⟨c1fireState.nextId, c1fireState.px - (c1fireState.pwidth : Int) / 2, c1fireState.py⟩,
         ⟨c1fireState.nextId + 1, c1fireState.px + (c1fireState.pwidth : Int) / 2,
          c1fireState.py⟩] ∧
     (c1fireState.px - (c1fireState.pwidth : Int) / 2) +
        (c1fireState.px + (c1fireState.pwidth : Int) / 2) = 2 * c1fireState.px) :=
  ⟨by decide, by decide, C8_fire_spawns_symmetric_pair c1fireState (by decide) (by decide)⟩

theorem stats_fields {g g' : GameState} (h : frameStats g = frameStats g') :
    g.px = g'.px ∧ g.py = g'.py ∧ g.pwidth = g'.pwidth ∧ g.pheight = g'.pheight ∧
    g.displayWidth = g'.displayWidth ∧ g.displayHeight = g'.displayHeight ∧
    g.current_distance = g'.current_distance := by
  unfold frameStats at h
  simp only [Prod.mk.injEq] at h
  exact ⟨h.1, h.2.1, h.2.2.1, h.2.2.2.1, h.2.2.2.2.1, h.2.2.2.2.2.1, h.2.2.2.2.2.2⟩

theorem moveFrame_stats (g : GameState) (rands : Nat → Nat) :
    frameStats (moveFrame g rands) = frameStats (movePhase g) := by
  unfold moveFrame updateProjectiles
  rw [(checkPlayerCollisions_keeps _).2, updateProjLoop_stats, firePhase_stats]

theorem superMove_fieldEq (g : GameState) :
    (superMove g).px = g.px ∧ (superMove g).py = g.py ∧
    (superMove g).pwidth = g.pwidth ∧ (superMove g).pheight = g.pheight ∧
    (superMove g).displayWidth = g.displayWidth ∧
    (superMove g).displayHeight = g.displayHeight ∧
    (superMove g).current_distance = g.current_distance ∧
    (superMove g).moving_forward = g.moving_forward ∧
    (superMove g).moving_backward = g.moving_backward ∧
    (superMove g).moving_right = g.moving_right ∧
    (superMove g).moving_left = g.moving_left := by
  obtain ⟨pl, hpl⟩ := superMove_shape g
  rw [hpl]
  exact ⟨rfl, rfl, rfl, rfl, rfl, rfl, rfl, rfl, rfl, rfl, rfl⟩

/-- C9 counterexample: on a frame with no directional input at all held
(and the ship therefore not moving on any axis), `current_distance`
still grows by the full speed, 15 — the claim says it does not change
on such frames. -/
theorem C9_counterexample :
    baseState.moving_forward = false ∧ baseState.moving_backward = false ∧
    baseState.moving_right = false ∧ baseState.moving_left = false ∧
    baseState.current_distance = 0 ∧
    (moveFrame baseState r0).current_distance = 15 ∧
    ¬((moveFrame baseState r0).current_distance = baseState.current_distance) := by
  refine ⟨rfl, rfl, rfl, rfl, rfl, ?_, ?_⟩ <;> decide

/-- C9 as the code has it: `current_distance` grows by the full speed on
every frame, unconditionally; when the backward move executes (backward
held, the forward branch not taken, bottom edge short of the display
bottom) the counter is additionally reduced by half the speed.  It
never stays unchanged and is unaffected by right/left motion. -/
theorem C9_distance_per_frame (g : GameState) (rands : Nat → Nat) :
    (moveFrame g rands).current_distance =
      if ¬(g.moving_forward ∧ ¬(g.py - (g.pheight : Int) / 2 ≤ 0)) ∧
         (g.moving_backward ∧ ¬(g.py + (g.pheight : Int) / 2 ≥ (g.displayHeight : Int))) then
        g.current_distance + shipSpeed - shipSpeed / 2
      else g.current_distance + shipSpeed := by
  have h1 := (stats_fields (moveFrame_stats g rands)).2.2.2.2.2.2
  rw [h1]
  unfold movePhase
  rw [moveShip_distance (superMove g)]
  obtain ⟨he1, he2, he3, he4, he5, he6, he7, he8, he9, he10, he11⟩ := superMove_fieldEq g
  rw [he2, he4, he6, he7, he8, he9]


theorem moveShip_nearBounds (g : GameState) (h : nearBounds g) : nearBounds (moveShip g) := by
  unfold nearBounds at h ⊢
  rw [moveShip_px, moveShip_py, (moveShip_sizes g).1, (moveShip_sizes g).2.1,
    (moveShip_sizes g).2.2.1, (moveShip_sizes g).2.2.2.1]
  rw [show (shipSpeed : Int) = 15 from rfl, show (15 : Int) / 2 = 7 by decide]
  split_ifs <;> omega

/-- C6 counterexample: the player entirely inside the play area, with
its top edge 7 pixels from the boundary and the forward key held; the
next `move()` shifts it the full 15 pixels, and its top edge ends at
-8, outside the play area — the claim says every edge stays within the
bounds after every `move()`. -/
theorem C6_counterexample : inBounds c6state ∧ ¬inBounds (moveFrame c6state r0) := by
  constructor
  · decide
  · decide

/-- C6 as the code has it: clamping only suppresses a move whose edge
has already reached the boundary, so an edge can overshoot by up to one
move delta but no further: if every edge is within 14 pixels (6 pixels
for the bottom edge) of the play area, it stays so after any `move()`
frame, for any inputs and any randomness. -/
theorem C6_overshoot_bounded (g : GameState) (rands : Nat → Nat) (h : nearBounds g) :
    nearBounds (moveFrame g rands) := by
  have hmv : nearBounds (movePhase g) := by
    unfold movePhase
    apply moveShip_nearBounds
    obtain ⟨pl, hpl⟩ := superMove_shape g
    rw [hpl]
    exact h
  obtain ⟨h1, h2, h3, h4, h5, h6, _⟩ := stats_fields (moveFrame_stats g rands)
  unfold nearBounds at hmv ⊢
  rw [h1, h2, h3, h4, h5, h6]
  exact hmv

/-- Witness for C6: the base state is fully in bounds, hence near the
bounds, and stays near the bounds after a frame. -/
theorem C6_witness : nearBounds baseState ∧ nearBounds (moveFrame baseState r0) :=
  ⟨by decide, C6_overshoot_bounded baseState r0 (by decide)⟩

theorem movePhase_proj (g : GameState) : (movePhase g).projectiles = g.projectiles := by
  unfold movePhase
  obtain ⟨pl, hpl⟩ := superMove_shape g
  rw [(moveShip_sizes (superMove g)).2.2.2.2.1, hpl]

/-- Runs `n` consecutive firing frames: the reachability trace behind
the C1 counterexample. -/
theorem C1_counterexample_aux : (iterFrames 8 c1fireState).projectiles.length = 16 := by decide

/-- C1 counterexample: starting from a fresh controller (no projectiles
in flight) with the fire key held and nothing to collide with, eight
consecutive frames leave 16 projectiles in flight — the cap check
`len < 15` runs before a fire that appends two, so the collection
exceeds the claimed bound of 15. -/
theorem C1_counterexample :
    c1fireState.projectiles.length = 0 ∧
    (iterFrames 8 c1fireState).projectiles.length = 16 ∧
    ¬((iterFrames 8 c1fireState).projectiles.length ≤ 15) := by
  refine ⟨rfl, C1_counterexample_aux, ?_⟩
  rw [C1_counterexample_aux]
  decide

/-- C1 as the code has it: the in-flight count never exceeds 16 (each
frame fires only when the count is below 15 and then appends two, and
the projectile pass only removes), and a fire attempt made while the
count is at or above the cap of 15 adds no projectiles. -/
theorem C1_cap_is_sixteen (g : GameState) (rands : Nat → Nat)
    (h : g.projectiles.length ≤ 16) :
    (moveFrame g rands).projectiles.length ≤ 16 ∧
    (maximumProjectiles ≤ g.projectiles.length →
      (moveFrame g rands).projectiles.length ≤ g.projectiles.length) := by
  unfold moveFrame updateProjectiles
  rw [(checkPlayerCollisions_keeps _).1]
  have hupd := updateProjLoop_length_le rands
    ((firePhase (movePhase g)).projectiles.length) (firePhase (movePhase g)) 0
  have hfp : (firePhase (movePhase g)).projectiles =
      if (movePhase g).firing ∧ (movePhase g).projectiles.length < maximumProjectiles then
        (movePhase g).projectiles ++
          [⟨(movePhase g).nextId, (movePhase g).px - ((movePhase g).pwidth : Int) / 2,
            (movePhase g).py⟩,
           ⟨(movePhase g).nextId + 1, (movePhase g).px + ((movePhase g).pwidth : Int) / 2,
            (movePhase g).py⟩]
      else (movePhase g).projectiles := firePhase_proj (movePhase g)
  rw [movePhase_proj] at hfp
  constructor
  · refine le_trans hupd ?_
    rw [hfp]
    split_ifs with hfire
    · rw [List.length_append]
      have := hfire.2
      unfold maximumProjectiles at this
      simp only [List.length_cons, List.length_nil]
      omega
    · exact h
  · intro hge
    refine le_trans hupd ?_
    rw [hfp]
    split_ifs with hfire
    · exact absurd hfire.2 (by omega)
    · exact Nat.le_refl _

/-- Witness for C1: the base state has 0 ≤ 16 projectiles and keeps at
most 16 after a frame. -/
theorem C1_witness :
    baseState.projectiles.length ≤ 16 ∧
    ((moveFrame baseState r0).projectiles.length ≤ 16 ∧
     (maximumProjectiles ≤ baseState.projectiles.length →
       (moveFrame baseState r0).projectiles.length ≤ baseState.projectiles.length)) :=
  ⟨by decide, C1_cap_is_sixteen baseState r0 (by decide)⟩

/-- C2 counterexample: a power-up carrier sits right on top of the
player, who holds no attachment; the frame's player-collision scan
finds the overlap, yet after the frame the player still holds no
attachment, the carrier is still in the obstacle set, and no removal
was recorded — overlap routes through `player.hurt(obstacle)` (damage
0), never through the carrier's `die`, so no grant happens. -/
theorem C2_counterexample :
    mechAst.is_mechanism = true ∧
    c2state.player.attachment = none ∧
    collidePoint mechAst.x mechAst.y c2state.px c2state.py c2state.pwidth c2state.pheight
      = true ∧
    (moveFrame c2state r0).player.attachment = none ∧
    (moveFrame c2state r0).asteroids = [mechAst] ∧
    ¬((moveFrame c2state r0).asteroids = []) ∧
    (moveFrame c2state r0).removals = [] := by
  refine ⟨rfl, rfl, by decide, ?_, ?_, ?_, ?_⟩ <;> decide

theorem playRestart_plays (x : Snd) :
    (Snd.playRestart x).plays = x.plays + 1 ∧ (Snd.playRestart x).playing = true := by
  unfold Snd.playRestart Snd.play Snd.stop
  split_ifs <;> exact ⟨rfl, rfl⟩

theorem setAttachment_accept (s : Sprite) (att : Attachment) (hn : s.attachment = none) :
    s.setAttachment (some att) =
      { s with
          attachment := some att,
          setupsRun := att.aid :: s.setupsRun,
          attachment_sound := s.attachment_sound.playRestart } := by
  unfold Sprite.setAttachment
  rw [if_neg]
  rw [hn]
  simp [beq_eq_false_iff_ne]

/-- C2 as the code has it: the attachment grant fires when the carrier
obstacle is *hurt* (in the frame loop this happens when a projectile
hits it): a carrier has health 0 ≤ 0, so `hurt` dispatches to
`MechanismAsteroid.die`, which instantiates the carrier's attachment
class, hands it to the player through the attachment setter (accepted
when the player holds none: setup runs, accept sound plays), and
removes the obstacle with the no-explosion flag, recording no explosion
effect. -/
theorem C2_grant_fires_on_hurt (g : GameState) (a : Asteroid)
    (hm : a.is_mechanism = true) (hcd : a.can_damage = true) (hh : a.health ≤ 0)
    (hatt : g.player.attachment = none) :
    (asteroidHurt g a).player.attachment = some ⟨g.nextId, a.akind, none⟩ ∧
    g.nextId ∈ (asteroidHurt g a).player.setupsRun ∧
    (asteroidHurt g a).player.attachment_sound.plays =
      g.player.attachment_sound.plays + 1 ∧
    (asteroidHurt g a).asteroids = removeFirstSid a.sid g.asteroids ∧
    (asteroidHurt g a).removals = (a.sid, false) :: g.removals ∧
    (asteroidHurt g a).explosions = g.explosions := by
  have hacc := setAttachment_accept g.player ⟨g.nextId, a.akind, none⟩ hatt
  unfold asteroidHurt
  rw [if_neg (by simp [hcd]), if_pos hh]
  unfold asteroidDie
  rw [if_pos (by simp [hm])]
  unfold removeAsteroid
  dsimp only
  rw [hacc]
  exact ⟨rfl, List.mem_cons_self _ _, (playRestart_plays _).1, rfl, rfl, rfl⟩

/-- Witness for C2: hurting the carrier of `c2state` grants the shield
attachment to the player and removes the carrier without explosion. -/
theorem C2_witness :
    mechAst.is_mechanism = true ∧ mechAst.health ≤ 0 ∧ c2state.player.attachment = none ∧
    ((asteroidHurt c2state mechAst).player.attachment =
        some ⟨c2state.nextId, mechAst.akind, none⟩ ∧
      c2state.nextId ∈ (asteroidHurt c2state mechAst).player.setupsRun ∧
      (asteroidHurt c2state mechAst).player.attachment_sound.plays =
        c2state.player.attachment_sound.plays + 1 ∧
      (asteroidHurt c2state mechAst).asteroids = removeFirstSid mechAst.sid c2state.asteroids ∧
      (asteroidHurt c2state mechAst).removals = (mechAst.sid, false) :: c2state.removals ∧
      (asteroidHurt c2state mechAst).explosions = c2state.explosions) :=
  ⟨by decide, by decide, by decide,
   C2_grant_fires_on_hurt c2state mechAst (by decide) (by decide) (by decide) (by decide)⟩

/-- C4 evaluated at its failing input: the player has health 1 and a
damage-1 asteroid overlaps it.  On the collision frame the code
subtracts the damage (health becomes 0) but fires no death transition:
no explosion is recorded and the round does not end.  Death, the
explosion at the player's position and the end of the round only come
on the next collision (here, the next frame of continued overlap). -/
theorem C4_killing_blow_defers_death :
    c4state.player.health = 1 ∧ rockAst.damage = 1 ∧
    collidePoint rockAst.x rockAst.y c4state.px c4state.py c4state.pwidth c4state.pheight
      = true ∧
    (moveFrame c4state r0).player.health = 0 ∧
    (moveFrame c4state r0).ended = false ∧
    (moveFrame c4state r0).explosions = [] ∧
    (moveFrame (moveFrame c4state r0) r0).ended = true ∧
    (moveFrame (moveFrame c4state r0) r0).explosions = [(400, 500)] := by
  refine ⟨rfl, rfl, by decide, ?_, ?_, ?_, ?_, ?_⟩ <;> decide

/-- C7 counterexample: a controller teardown with two in-flight
projectiles destroys and removes only the first: the second is still in
the collection afterwards and its `destroy()` was never called — the
loop removes elements of the list it is iterating, so it skips every
other projectile.  The claim says the collection ends empty with every
projectile destroyed. -/
theorem C7_counterexample :
    c7state.projectiles.length = 2 ∧
    (shipControllerDestroy c7state).projectiles = [⟨1, 2, 100⟩] ∧
    ¬((shipControllerDestroy c7state).projectiles = []) ∧
    (1 : Nat) ∉ (shipControllerDestroy c7state).destroyedIds := by
  refine ⟨rfl, ?_, ?_, ?_⟩ <;> decide

/-- C7 as the code has it: `destroy_projectiles` iterates over the very
list it removes from, so it destroys and removes exactly the
projectiles at even scan positions (0, 2, 4, ... — recorded most
recent first), and the projectiles at odd positions survive untouched:
⌊n/2⌋ of the original n remain in the collection. -/
theorem C7_teardown_skips_alternate (g : GameState) (hnd : pidsNodup g) :
    (shipControllerDestroy g).projectiles = oddIdx g.projectiles ∧
    (shipControllerDestroy g).destroyedIds =
      ((evenIdx g.projectiles).map Projectile.pid).reverse ++ g.destroyedIds ∧
    (shipControllerDestroy g).projectiles.length = g.projectiles.length / 2 := by
  unfold shipControllerDestroy destroyProjectiles
  have hspec := destroyLoop_spec g.projectiles.length g.projectiles g.destroyedIds 0 hnd
    (by omega)
  dsimp only
  rw [hspec]
  dsimp only
  simp only [List.take_zero, List.drop_zero, List.nil_append]
  exact ⟨trivial, trivial, oddIdx_length g.projectiles⟩

/-- Witness for C7 at the two-projectile state. -/
theorem C7_witness :
    pidsNodup c7state ∧
    ((shipControllerDestroy c7state).projectiles = oddIdx c7state.projectiles ∧
     (shipControllerDestroy c7state).destroyedIds =
       ((evenIdx c7state.projectiles).map Projectile.pid).reverse ++ c7state.destroyedIds ∧
     (shipControllerDestroy c7state).projectiles.length = c7state.projectiles.length / 2) :=
  ⟨by decide, C7_teardown_skips_alternate c7state (by decide)⟩

theorem updateProjLoop_step_destroy (rands : Nat → Nat) (g : GameState) (i fuel : Nat)
    (p : Projectile) (hp : g.projectiles[i]? = some p) (hy : p.y ≤ 0) :
    updateProjLoop rands g i (fuel + 1) =
      updateProjLoop rands (destroyProjectile g p.pid) (i + 1) fuel := by
  rw [updateProjLoop, hp]
  simp [hy]

theorem updateProjLoop_step_hit (rands : Nat → Nat) (g : GameState) (i fuel : Nat)
    (p : Projectile) (a : Asteroid) (hp : g.projectiles[i]? = some p) (hy : ¬p.y ≤ 0)
    (ha : firstHit g.asteroids p = some a) :
    updateProjLoop rands g i (fuel + 1) =
      updateProjLoop rands
        (destroyProjectile (asteroidHurt { g with testedIds := p.pid :: g.testedIds } a) p.pid)
        (i + 1) fuel := by
  rw [updateProjLoop, hp]
  simp [hy, ha]

/-- C10: removal happens on the list being iterated: at any loop state
of `update_projectiles` where the projectile `p` at index `i` is about
to be destroyed (its `y` has reached the top bound, or it registers a
hit), the projectile `q` that sits at index `i + 1` is skipped by the
rest of the pass: it is never advanced and never passed to
`check_projectile_collisions` in this frame, and it survives the pass
unchanged, shifted into slot `i`. -/
theorem C10_removal_skips_successor (rands : Nat → Nat) (g : GameState) (i fuel : Nat)
    (p q : Projectile)
    (hnd : pidsNodup g)
    (hp : g.projectiles[i]? = some p)
    (hq : g.projectiles[i + 1]? = some q)
    (hrem : p.y ≤ 0 ∨ (¬p.y ≤ 0 ∧ (firstHit g.asteroids p).isSome = true))
    (hm : q.pid ∉ g.movedIds) (ht : q.pid ∉ g.testedIds) :
    (updateProjLoop rands g i (fuel + 1)).projectiles[i]? = some q ∧
    q.pid ∉ (updateProjLoop rands g i (fuel + 1)).movedIds ∧
    q.pid ∉ (updateProjLoop rands g i (fuel + 1)).testedIds := by
  have hnotdrop := pid_not_in_drop g.projectiles i q hnd hq
  have hpq := pid_succ_ne g.projectiles i p q hnd hp hq
  rcases hrem with hy | ⟨hy, hsome⟩
  · rw [updateProjLoop_step_destroy rands g i fuel p hp hy]
    have hnd' : pidsNodup (destroyProjectile g p.pid) := pidsNodup_destroy g p.pid hnd
    refine ⟨?_, ?_, ?_⟩
    · rw [updateProjLoop_untouchedBelow rands fuel _ (i + 1) i (by omega) hnd']
      show (removeFirstPid p.pid g.projectiles)[i]? = some q
      rw [removal_getElem_at g.projectiles i p hnd hp]
      exact hq
    · intro hmem
      rcases updateProjLoop_moved rands fuel _ (i + 1) q.pid hnd' hmem with h | h
      · exact hm h
      · rw [show (destroyProjectile g p.pid).projectiles.drop (i + 1) =
            g.projectiles.drop (i + 2) from removal_drop g.projectiles i p hnd hp] at h
        exact hnotdrop h
    · intro hmem
      rcases updateProjLoop_tested rands fuel _ (i + 1) q.pid hnd' hmem with h | h
      · exact ht h
      · rw [show (destroyProjectile g p.pid).projectiles.drop (i + 1) =
            g.projectiles.drop (i + 2) from removal_drop g.projectiles i p hnd hp] at h
        exact hnotdrop h
  · obtain ⟨a, ha⟩ := Option.isSome_iff_exists.mp hsome
    rw [updateProjLoop_step_hit rands g i fuel p a hp hy ha]
    have hkeeps := asteroidHurt_keeps { g with testedIds := p.pid :: g.testedIds } a
    have hproj : (destroyProjectile
        (asteroidHurt { g with testedIds := p.pid :: g.testedIds } a) p.pid).projectiles =
        removeFirstPid p.pid g.projectiles := by
      show removeFirstPid p.pid
        (asteroidHurt { g with testedIds := p.pid :: g.testedIds } a).projectiles = _
      rw [hkeeps.1]
    have hnd' : pidsNodup (destroyProjectile
        (asteroidHurt { g with testedIds := p.pid :: g.testedIds } a) p.pid) := by
      unfold pidsNodup
      rw [hproj]
      exact hnd.sublist ((removeFirstPid_sublist p.pid g.projectiles).map Projectile.pid)
    refine ⟨?_, ?_, ?_⟩
    · rw [updateProjLoop_untouchedBelow rands fuel _ (i + 1) i (by omega) hnd', hproj]
      rw [removal_getElem_at g.projectiles i p hnd hp]
      exact hq
    · intro hmem
      rcases updateProjLoop_moved rands fuel _ (i + 1) q.pid hnd' hmem with h | h
      · rw [show (destroyProjectile
            (asteroidHurt { g with testedIds := p.pid :: g.testedIds } a) p.pid).movedIds =
            g.movedIds from hkeeps.2.1] at h
        exact hm h
      · rw [hproj, removal_drop g.projectiles i p hnd hp] at h
        exact hnotdrop h
    · intro hmem
      rcases updateProjLoop_tested rands fuel _ (i + 1) q.pid hnd' hmem with h | h
      · rw [show (destroyProjectile
            (asteroidHurt { g with testedIds := p.pid :: g.testedIds } a) p.pid).testedIds =
            p.pid :: g.testedIds from hkeeps.2.2.1] at h
        rcases List.mem_cons.mp h with h | h
        · exact hpq h.symm
        · exact ht h
      · rw [hproj, removal_drop g.projectiles i p hnd hp] at h
        exact hnotdrop h

/-- Witness for C10: three projectiles, the first on the top bound; a
pass over the list leaves the second untouched, untested and unmoved,
sitting at index 0. -/
theorem C10_witness :
    pidsNodup c10state ∧
    ((updateProjLoop r0 c10state 0 (2 + 1)).projectiles[0]? = some ⟨1, 20, 50⟩ ∧
     (⟨1, 20, 50⟩ : Projectile).pid ∉ (updateProjLoop r0 c10state 0 (2 + 1)).movedIds ∧
     (⟨1, 20, 50⟩ : Projectile).pid ∉ (updateProjLoop r0 c10state 0 (2 + 1)).testedIds) :=
  ⟨by decide,
   C10_removal_skips_successor r0 c10state 0 2 ⟨0, 10, 0⟩ ⟨1, 20, 50⟩ (by decide) (by decide)
     (by decide) (Or.inl (by decide)) (by decide) (by decide)⟩
